import Mathlib

/-!
# Verification of the EdgePoly backtesting engine

Shallow embedding of `src/backtesting/engine.ts` (`BacktestEngine`) and the
statistics helpers of `src/utils/helpers.ts`, together with proofs of the
spec claims about them.

Modelling conventions:
* JavaScript `number` arithmetic is idealised as exact rational arithmetic
  (`ℚ`); timestamps (`Date.getTime()`) are integers (`ℤ`).
* `Math.sqrt` never influences any claim below (only the magnitudes of
  Sharpe-like ratios, which no claim interrogates), so it is kept abstract
  as a function parameter `jsqrt : ℚ → ℚ`; likewise `Math.pow` as `jpow`.
* Values that the source can set to IEEE `Infinity` or `NaN` are modelled by
  the inductive `JsNum`: `JsNum.inf` is the raw IEEE `+Infinity` of the
  untyped `number` domain produced by the literal `Infinity`, `JsNum.nan`
  the IEEE `NaN` produced by `0/0`.
* JavaScript truthiness on optional numbers (`x || d` yields `d` for both
  `undefined` and `0`) is modelled by `orDefaultQ` / `effectiveCap`.
* `Map` objects keyed by market id are modelled as association lists in
  insertion order, which is the iteration order of a JS `Map`.
* The wall clock read by `new Date()` inside `shouldExitPosition` is an
  explicit parameter `wallClock : ℤ` of the simulation.
* `strategy.onSignalExecuted` notifications are collected in the state
  (field `notifs`); the random `generateId()` trade ids are omitted.
-/

namespace Backtest

/-- Trade direction; the engine casts `signal.type as 'buy' | 'sell'`. -/
inductive Side where
  | buy
  | sell
deriving DecidableEq, Repr

/-- One outcome of a prediction market (`OutcomeSnapshot`); only the fields
the engine reads (`id`, `price`) are modelled. -/
structure OutcomeSnapshot where
  id : String
  price : ℚ
deriving DecidableEq, Repr

/-- A market snapshot (`MarketSnapshot`); only the fields the engine reads. -/
structure MarketSnapshot where
  id : String
  timestamp : ℤ
  outcomes : List OutcomeSnapshot
  resolved : Bool
deriving DecidableEq, Repr

/-- A trading signal (`Signal`); only the fields the engine reads.  Optional
numeric fields are `Option ℚ`, optional dates `Option ℤ`. -/
structure Signal where
  id : String
  marketId : String
  type : Side
  entryPrice : Option ℚ
  stopLoss : Option ℚ
  takeProfit : Option ℚ
  expiresAt : Option ℤ
deriving DecidableEq, Repr

/-- An open position, as stored in the engine's `positions` map. -/
structure Position where
  side : Side
  entryPrice : ℚ
  entryTime : ℤ
  size : ℚ
  signal : Signal
deriving DecidableEq, Repr

/-- A closed trade record (`BacktestTrade`); the random `id` is omitted. -/
structure BacktestTrade where
  marketId : String
  outcomeId : String
  side : Side
  entryTime : ℤ
  exitTime : ℤ
  entryPrice : ℚ
  exitPrice : ℚ
  size : ℚ
  pnl : ℚ
  pnlPercent : ℚ
  fees : ℚ
  slippage : ℚ
  signal : Signal
deriving DecidableEq, Repr

/-- One point of the equity curve (`EquityPoint`). -/
structure EquityPoint where
  timestamp : ℤ
  equity : ℚ
  drawdown : ℚ
  drawdownPercent : ℚ
deriving DecidableEq, Repr

/-- A discrete drawdown period (`DrawdownPeriod`). -/
structure DrawdownPeriod where
  startDate : ℤ
  endDate : ℤ
  maxDrawdown : ℚ
  maxDrawdownPercent : ℚ
  duration : ℚ
  recovered : Bool
  recoveryDate : Option ℤ
deriving DecidableEq, Repr

/-- Outcome classification passed to `onSignalExecuted`. -/
inductive TradeOutcome where
  | win
  | loss
  | breakeven
deriving DecidableEq, Repr

/-- The `SignalResult` record handed to `strategy.onSignalExecuted`. -/
structure SignalResult where
  signalId : String
  executed : Bool
  entryPrice : ℚ
  exitPrice : ℚ
  pnl : ℚ
  pnlPercent : ℚ
  holdingPeriod : ℚ
  outcome : TradeOutcome
deriving DecidableEq, Repr

/-- The backtest configuration (`BacktestConfig`); only the fields the
engine reads.  `maxConcurrentPositions` is optional in the source. -/
structure BacktestConfig where
  startDate : ℤ
  endDate : ℤ
  initialCapital : ℚ
  maxConcurrentPositions : Option ℕ
deriving DecidableEq, Repr

/-- A strategy, reduced to the pure capabilities the simulation loop calls:
`generateSignals`, `validateSignal`, `getPositionSize`.  The notification
callback `onSignalExecuted` is modelled by recording its arguments in the
simulation state instead. -/
structure Strategy where
  generateSignals : List MarketSnapshot → List Signal
  validateSignal : Signal → Bool
  getPositionSize : Signal → ℚ → ℚ

/-- A JavaScript `number` result that may be the IEEE `Infinity` or `NaN`. -/
inductive JsNum where
  | fin : ℚ → JsNum
  | inf : JsNum
  | nan : JsNum
deriving DecidableEq, Repr

/-- The raw IEEE `+Infinity` value of the JavaScript `number` type: the
model of the literal `Infinity` that the source returns.  The source has no
tagged union for unbounded results; `Infinity` lives in the same `number`
domain as every finite value. -/
def jsInfinity : JsNum := JsNum.inf

/-- JS `x || d` on an optional number: `undefined` and `0` both yield `d`. -/
def orDefaultQ (x : Option ℚ) (d : ℚ) : ℚ :=
  match x with
  | some v => if v = 0 then d else v
  | none => d

/-- The engine after its constructor ran: resolved slippage and fee rates. -/
structure BacktestEngine where
  slippage : ℚ
  fees : ℚ
deriving DecidableEq, Repr

/-- Constructor options `{ slippage?, fees? }` of `BacktestEngine`. -/
structure EngineOpts where
  slippage : Option ℚ
  fees : Option ℚ
deriving DecidableEq, Repr

/-- `new BacktestEngine(provider, options)`:
`this.slippage = options.slippage || 0.005` and
`this.fees = options.fees || 0.02` — note the JS `||`, under which an
explicitly configured `0` falls back to the default. -/
def mkBacktestEngine (o : EngineOpts) : BacktestEngine :=
  { slippage := orDefaultQ o.slippage (5 / 1000)
    fees := orDefaultQ o.fees (2 / 100) }

/-- `config.maxConcurrentPositions || 10` (JS `||`: absent or `0` gives 10). -/
def effectiveCap (cfg : BacktestConfig) : ℕ :=
  match cfg.maxConcurrentPositions with
  | some c => if c = 0 then 10 else c
  | none => 10

/-- `market.outcomes[0]`; engine snapshots always carry at least one
outcome (an empty array would make the source throw on `[0].price`). -/
def firstOutcome (m : MarketSnapshot) : OutcomeSnapshot :=
  m.outcomes.headD ⟨"", 0⟩

/-- `applySlippage`: buys pay `price * (1 + slippage)`, sells receive
`price * (1 - slippage)`. -/
def applySlippage (eng : BacktestEngine) (price : ℚ) (side : Side) : ℚ :=
  price * (match side with
    | .buy => 1 + eng.slippage
    | .sell => 1 - eng.slippage)

/-- `calculatePnL`: signed price difference times size. -/
def calculatePnL (entryPrice exitPrice size : ℚ) (side : Side) : ℚ :=
  (match side with
    | .buy => exitPrice - entryPrice
    | .sell => entryPrice - exitPrice) * size

/-- The opposite side, used for the closing transaction. -/
def oppositeSide : Side → Side
  | .buy => .sell
  | .sell => .buy

/-- `shouldExitPosition`.  Checks in source order: stop-loss, take-profit,
expiration.  (The `market.resolved` disjunct is applied by the caller.)
JS truthiness: `if (signal.stopLoss)` skips a stop-loss of `0`; a `Date` in
`signal.expiresAt` is always truthy.  The expiration check compares
`new Date()` — the ambient wall clock `wallClock`, NOT the frame's
timestamp — against `signal.expiresAt`. -/
def shouldExitPosition (wallClock : ℤ) (pos : Position) (currentPrice : ℚ) :
    Bool :=
  (match pos.signal.stopLoss with
    | some sl =>
        decide (sl ≠ 0) &&
        (match pos.side with
          | .buy => decide (currentPrice ≤ sl)
          | .sell => decide (sl ≤ currentPrice))
    | none => false) ||
  (match pos.signal.takeProfit with
    | some tp =>
        decide (tp ≠ 0) &&
        (match pos.side with
          | .buy => decide (tp ≤ currentPrice)
          | .sell => decide (currentPrice ≤ tp))
    | none => false) ||
  (match pos.signal.expiresAt with
    | some e => decide (e < wallClock)
    | none => false)

/-- Per-market historical data, as a list `(marketId, snapshots)` in the
order of `config.markets` (the engine's `Map<string, MarketSnapshot[]>`). -/
abbrev MarketData := List (String × List MarketSnapshot)

/-- All distinct snapshot timestamps over every market, ascending — the
engine's `Array.from(allTimestamps).sort((a, b) => a - b)` over a `Set`. -/
def sortedTimestamps (md : MarketData) : List ℤ :=
  ((md.map (fun e => e.2.map (·.timestamp))).flatten.dedup).insertionSort (· ≤ ·)

/-- The frame at a timestamp: for each market, its snapshot at exactly that
time, if any (`snapshots.find(s => s.timestamp.getTime() === timestamp)`). -/
def currentSnapshots (md : MarketData) (ts : ℤ) : List MarketSnapshot :=
  md.filterMap (fun e => e.2.find? (fun s => decide (s.timestamp = ts)))

/-- Mutable simulation state of `simulate`, plus the recorded
`onSignalExecuted` notifications. -/
structure SimState where
  positions : List (String × Position)
  equity : ℚ
  peakEquity : ℚ
  trades : List BacktestTrade
  curve : List EquityPoint
  notifs : List SignalResult
deriving DecidableEq, Repr

/-- Initial simulation state. -/
def initState (cfg : BacktestConfig) : SimState :=
  { positions := []
    equity := cfg.initialCapital
    peakEquity := cfg.initialCapital
    trades := []
    curve := []
    notifs := [] }

/-- The trade record built when a position is closed during a frame. -/
def closeTrade (eng : BacktestEngine) (marketId : String) (pos : Position)
    (market : MarketSnapshot) (date : ℤ) : BacktestTrade :=
  let currentPrice := (firstOutcome market).price
  let exitPrice := applySlippage eng currentPrice (oppositeSide pos.side)
  let pnl := calculatePnL pos.entryPrice exitPrice pos.size pos.side
  { marketId := marketId
    outcomeId := (firstOutcome market).id
    side := pos.side
    entryTime := pos.entryTime
    exitTime := date
    entryPrice := pos.entryPrice
    exitPrice := exitPrice
    size := pos.size
    pnl := pnl - eng.fees * pos.size * 2
    pnlPercent := pnl / (pos.size * pos.entryPrice) * 100
    fees := eng.fees * pos.size * 2
    slippage := |exitPrice - currentPrice| * pos.size
    signal := pos.signal }

/-- The `SignalResult` handed to `strategy.onSignalExecuted` when a
position closes during a frame. -/
def mkSignalResult (pos : Position) (t : BacktestTrade) (date : ℤ) :
    SignalResult :=
  { signalId := pos.signal.id
    executed := true
    entryPrice := pos.entryPrice
    exitPrice := t.exitPrice
    pnl := t.pnl
    pnlPercent := t.pnlPercent
    holdingPeriod := ((date - pos.entryTime : ℤ) : ℚ) / (1000 * 60 * 60)
    outcome :=
      if 0 < t.pnl then .win else if t.pnl < 0 then .loss else .breakeven }

/-- Exit evaluation for one open position in a frame: if the position's
market has a snapshot and `shouldExitPosition || market.resolved`, the
position is closed (trade appended, equity updated, entry deleted,
strategy notified synchronously). -/
def processExit (eng : BacktestEngine) (wallClock : ℤ)
    (frame : List MarketSnapshot) (date : ℤ) (st : SimState)
    (e : String × Position) : SimState :=
  match frame.find? (fun m => decide (m.id = e.1)) with
  | none => st
  | some market =>
      if shouldExitPosition wallClock e.2 (firstOutcome market).price
          || market.resolved then
        let t := closeTrade eng e.1 e.2 market date
        { st with
          trades := st.trades ++ [t]
          equity := st.equity + t.pnl
          positions := st.positions.filter (fun p => decide (p.1 ≠ e.1))
          notifs := st.notifs ++ [mkSignalResult e.2 t date] }
      else st

/-- Signal intake for one candidate signal, with the source's rejection
order: cap reached, duplicate market, strategy validation, market missing
or resolved, size below 1.  On success a position opens at the signal's
entry price (or the market price — JS `||`, so an entry price of `0` also
falls back) adjusted by slippage in the opening direction. -/
def processSignal (eng : BacktestEngine) (strat : Strategy)
    (cfg : BacktestConfig) (frame : List MarketSnapshot) (date : ℤ)
    (st : SimState) (signal : Signal) : SimState :=
  if st.positions.length ≥ effectiveCap cfg then st
  else if st.positions.any (fun p => decide (p.1 = signal.marketId)) then st
  else if !(strat.validateSignal signal) then st
  else
    match frame.find? (fun m => decide (m.id = signal.marketId)) with
    | none => st
    | some market =>
        if market.resolved then st
        else
          let positionSize := strat.getPositionSize signal st.equity
          if positionSize < 1 then st
          else
            let base := orDefaultQ signal.entryPrice (firstOutcome market).price
            let entryPrice := applySlippage eng base signal.type
            { st with
              positions := st.positions ++
                [(signal.marketId,
                  { side := signal.type
                    entryPrice := entryPrice
                    entryTime := date
                    size := positionSize
                    signal := signal })] }

/-- One simulation frame: skip if no market has a snapshot; otherwise
exit evaluation over the open positions, then signal intake, then one
equity point (peak update, drawdown, percent). -/
def stepFrame (eng : BacktestEngine) (strat : Strategy)
    (cfg : BacktestConfig) (wallClock : ℤ) (md : MarketData)
    (st : SimState) (ts : ℤ) : SimState :=
  let frame := currentSnapshots md ts
  if frame.isEmpty then st
  else
    let st1 := st.positions.foldl (processExit eng wallClock frame ts) st
    let signals := strat.generateSignals frame
    let st2 := signals.foldl (processSignal eng strat cfg frame ts) st1
    let peak := max st2.peakEquity st2.equity
    let drawdown := peak - st2.equity
    let drawdownPercent := if 0 < peak then drawdown / peak else 0
    { st2 with
      peakEquity := peak
      curve := st2.curve ++
        [{ timestamp := ts
           equity := st2.equity
           drawdown := drawdown
           drawdownPercent := drawdownPercent }] }

/-- The main loop of `simulate`, before the closing pass. -/
def simulateFrames (eng : BacktestEngine) (strat : Strategy)
    (cfg : BacktestConfig) (wallClock : ℤ) (md : MarketData) : SimState :=
  (sortedTimestamps md).foldl (stepFrame eng strat cfg wallClock md)
    (initState cfg)

/-- One step of the end-of-run closing pass, for one still-open position:
if its market has a last snapshot, a trade at that snapshot's raw price
(zero slippage) is appended, with exit time `config.endDate`.  The source
appends the trade but does NOT update `equity`, delete the position, or
notify the strategy. -/
def forceCloseStep (eng : BacktestEngine) (cfg : BacktestConfig)
    (md : MarketData) (acc : SimState) (e : String × Position) : SimState :=
  let lastSnapshots := md.filterMap (fun m => m.2.getLast?)
  match lastSnapshots.find? (fun m => decide (m.id = e.1)) with
  | none => acc
  | some market =>
      let exitPrice := (firstOutcome market).price
      let pnl := calculatePnL e.2.entryPrice exitPrice e.2.size e.2.side
      { acc with
        trades := acc.trades ++
          [{ marketId := e.1
             outcomeId := (firstOutcome market).id
             side := e.2.side
             entryTime := e.2.entryTime
             exitTime := cfg.endDate
             entryPrice := e.2.entryPrice
             exitPrice := exitPrice
             size := e.2.size
             pnl := pnl - eng.fees * e.2.size * 2
             pnlPercent := pnl / (e.2.size * e.2.entryPrice) * 100
             fees := eng.fees * e.2.size * 2
             slippage := 0
             signal := e.2.signal }] }

/-- `// Close remaining positions at end`: the closing pass over every
still-open position. -/
def forceCloseEnd (eng : BacktestEngine) (cfg : BacktestConfig)
    (md : MarketData) (st : SimState) : SimState :=
  st.positions.foldl (forceCloseStep eng cfg md) st

/-- `simulate`: the frame loop followed by the end-of-run closing pass. -/
def simulate (eng : BacktestEngine) (strat : Strategy)
    (cfg : BacktestConfig) (wallClock : ℤ) (md : MarketData) : SimState :=
  forceCloseEnd eng cfg md (simulateFrames eng strat cfg wallClock md)

/-! ## Statistics helpers (`src/utils/helpers.ts`) and the metric passes -/

/-- Per-step simple returns of the equity curve:
`equityCurve.slice(1).map((e, i) => (e.equity - c[i].equity) / c[i].equity)`.
(Division by a zero equity cannot occur in the claims below; Lean's `/0 = 0`
convention stands in for the IEEE result there.) -/
def returnsOf : List EquityPoint → List ℚ
  | p :: q :: rest => (q.equity - p.equity) / p.equity :: returnsOf (q :: rest)
  | _ => []

/-- `sharpeRatio(returns, riskFreeRate = 0)` of the source, with `Math.sqrt`
abstracted as `jsqrt`.  Always finite: empty input and zero standard
deviation both return 0. -/
def sharpeVal (jsqrt : ℚ → ℚ) (returns : List ℚ) (riskFreeRate : ℚ) : ℚ :=
  if returns = [] then 0
  else
    let avgReturn := returns.sum / (returns.length : ℚ)
    let excessReturn := avgReturn - riskFreeRate
    let variance := (returns.map (fun r => (r - avgReturn) ^ 2)).sum /
      (returns.length : ℚ)
    let stdDev := jsqrt variance
    if stdDev = 0 then 0 else excessReturn / stdDev

/-- `sortinoRatio(returns, riskFreeRate = 0)` of the source.  Only the
returns strictly below `riskFreeRate` feed the denominator; when none
exist the source executes `return Infinity` — the raw IEEE infinity of its
`number` result type (`JsNum.inf`), not a tagged sentinel. -/
def sortinoVal (jsqrt : ℚ → ℚ) (returns : List ℚ) (riskFreeRate : ℚ) :
    JsNum :=
  if returns = [] then .fin 0
  else
    let avgReturn := returns.sum / (returns.length : ℚ)
    let excessReturn := avgReturn - riskFreeRate
    let negativeReturns := returns.filter (fun r => decide (r < riskFreeRate))
    if negativeReturns = [] then .inf
    else
      let downVariance :=
        (negativeReturns.map (fun r => (r - riskFreeRate) ^ 2)).sum /
          (negativeReturns.length : ℚ)
      let downDev := jsqrt downVariance
      if downDev = 0 then .fin 0 else .fin (excessReturn / downDev)

/-- `maxDrawdown(equityCurve)` of the source: running peak, returning the
largest absolute drawdown and the percent observed at that drawdown, as
`(value, percent)`. -/
def maxDrawdown (equities : List ℚ) : ℚ × ℚ :=
  match equities with
  | [] => (0, 0)
  | e0 :: _ =>
      let r := equities.foldl
        (fun (st : ℚ × ℚ × ℚ) equity =>
          let peak := max st.1 equity
          let dd := peak - equity
          let ddPercent := if 0 < peak then dd / peak else 0
          if st.2.1 < dd then (peak, dd, ddPercent) else (peak, st.2.1, st.2.2))
        (e0, 0, 0)
      (r.2.1, r.2.2)

/-- `cagr(startValue, endValue, years)` of the source, with `Math.pow`
abstracted as `jpow`; non-positive start or years yield 0. -/
def cagrVal (jpow : ℚ → ℚ → ℚ) (startValue endValue years : ℚ) : ℚ :=
  if startValue ≤ 0 ∨ years ≤ 0 then 0
  else jpow (endValue / startValue) (1 / years) - 1

/-- `trades.filter(t => t.pnl > 0)`. -/
def winningOf (trades : List BacktestTrade) : List BacktestTrade :=
  trades.filter (fun t => decide (0 < t.pnl))

/-- `trades.filter(t => t.pnl < 0)`. -/
def losingOf (trades : List BacktestTrade) : List BacktestTrade :=
  trades.filter (fun t => decide (t.pnl < 0))

/-- Gross profit: sum of winning pnls. -/
def grossProfitOf (trades : List BacktestTrade) : ℚ :=
  ((winningOf trades).map (·.pnl)).sum

/-- Gross loss: `Math.abs` of the sum of losing pnls. -/
def grossLossOf (trades : List BacktestTrade) : ℚ :=
  |((losingOf trades).map (·.pnl)).sum|

/-- `BacktestSummary`.  The source fields `sharpeRatio`, `sortinoRatio` and
`profitFactor` are named `sharpe`, `sortino`, `profitFactor` here; the two
latter can be the IEEE infinity and are `JsNum`. -/
structure BacktestSummary where
  totalTrades : ℕ
  winningTrades : ℕ
  losingTrades : ℕ
  winRate : ℚ
  totalPnl : ℚ
  totalReturn : ℚ
  maxDrawdown : ℚ
  sharpe : ℚ
  sortino : JsNum
  profitFactor : JsNum
  averageWin : ℚ
  averageLoss : ℚ
  largestWin : ℚ
  largestLoss : ℚ
  averageHoldingPeriod : ℚ
  exposure : ℚ
deriving DecidableEq, Repr

/-- `Math.max(...)` over a nonempty pnl list. -/
def listMax (x : ℚ) (xs : List ℚ) : ℚ := xs.foldl max x

/-- `calculateExposure`: fraction of the run's duration spent in trades. -/
def calculateExposure (trades : List BacktestTrade)
    (equityCurve : List EquityPoint) : ℚ :=
  match equityCurve with
  | [] => 0
  | p :: rest =>
      let totalDuration : ℚ :=
        (((p :: rest).getLastD p).timestamp - p.timestamp : ℤ)
      let exposedTime : ℚ :=
        (trades.map (fun t => ((t.exitTime - t.entryTime : ℤ) : ℚ))).sum
      if 0 < totalDuration then exposedTime / totalDuration else 0

/-- `calculateSummary(trades, equityCurve, config)`. -/
def calculateSummary (jsqrt : ℚ → ℚ) (trades : List BacktestTrade)
    (equityCurve : List EquityPoint) (cfg : BacktestConfig) :
    BacktestSummary :=
  let winningTrades := winningOf trades
  let losingTrades := losingOf trades
  let totalPnl := (trades.map (·.pnl)).sum
  let grossProfit := grossProfitOf trades
  let grossLoss := grossLossOf trades
  let returns := returnsOf equityCurve
  let holdingPeriods :=
    trades.map (fun t => ((t.exitTime - t.entryTime : ℤ) : ℚ) / (1000 * 60 * 60))
  let dd := maxDrawdown (equityCurve.map (·.equity))
  { totalTrades := trades.length
    winningTrades := winningTrades.length
    losingTrades := losingTrades.length
    winRate :=
      if 0 < trades.length then
        (winningTrades.length : ℚ) / (trades.length : ℚ)
      else 0
    totalPnl := totalPnl
    totalReturn :=
      if 0 < cfg.initialCapital then totalPnl / cfg.initialCapital else 0
    maxDrawdown := dd.2
    sharpe := sharpeVal jsqrt returns 0
    sortino := sortinoVal jsqrt returns 0
    profitFactor :=
      if 0 < grossLoss then .fin (grossProfit / grossLoss) else .inf
    averageWin :=
      if 0 < winningTrades.length then
        grossProfit / (winningTrades.length : ℚ)
      else 0
    averageLoss :=
      if 0 < losingTrades.length then grossLoss / (losingTrades.length : ℚ) else 0
    largestWin :=
      match winningTrades with
      | [] => 0
      | t :: ts => listMax t.pnl (ts.map (·.pnl))
    largestLoss :=
      match losingTrades with
      | [] => 0
      | t :: ts => listMax |t.pnl| (ts.map (fun u => |u.pnl|))
    averageHoldingPeriod :=
      if 0 < holdingPeriods.length then
        holdingPeriods.sum / (holdingPeriods.length : ℚ)
      else 0
    exposure := calculateExposure trades equityCurve }

/-- `PerformanceMetrics`.  Source fields `sharpeRatio`, `sortinoRatio`,
`calmarRatio`, `payoffRatio` are named `sharpe`, `sortino`, `calmar`,
`payoff` here. -/
structure PerformanceMetrics where
  cagr : ℚ
  volatility : ℚ
  sharpe : ℚ
  sortino : JsNum
  calmar : ℚ
  maxDrawdown : ℚ
  maxDrawdownDuration : ℚ
  winRate : ℚ
  profitFactor : JsNum
  expectancy : ℚ
  payoff : ℚ
  ulcerIndex : JsNum
deriving DecidableEq, Repr

/-- `getMaxDrawdownDuration(equityCurve)`. -/
def getMaxDrawdownDuration (equityCurve : List EquityPoint) : ℚ :=
  match equityCurve with
  | [] => 0
  | p :: _ =>
      (equityCurve.foldl
        (fun (st : ℚ × ℚ × ℤ) q =>
          if st.2.1 < q.equity then
            (max st.1 (((q.timestamp - st.2.2 : ℤ) : ℚ) /
              (1000 * 60 * 60 * 24)),
              q.equity, q.timestamp)
          else st)
        (0, p.equity, p.timestamp)).1

/-- `calculateMetrics(trades, equityCurve, config)`.  The end equity falls
back to the start equity through JS `||` when the curve is empty or the
last equity is `0`; `ulcerIndex` is the IEEE `NaN` (`0/0`) on an empty
curve. -/
def calculateMetrics (jsqrt : ℚ → ℚ) (jpow : ℚ → ℚ → ℚ)
    (trades : List BacktestTrade) (equityCurve : List EquityPoint)
    (cfg : BacktestConfig) : PerformanceMetrics :=
  let returns := returnsOf equityCurve
  let startEquity := cfg.initialCapital
  let endEquity :=
    orDefaultQ ((equityCurve.getLast?).map (·.equity)) startEquity
  let years : ℚ :=
    ((cfg.endDate - cfg.startDate : ℤ) : ℚ) / (1000 * 60 * 60 * 24 * 365)
  let dd := maxDrawdown (equityCurve.map (·.equity))
  let winningTrades := winningOf trades
  let losingTrades := losingOf trades
  let grossProfit := grossProfitOf trades
  let grossLoss := grossLossOf trades
  let avgWin :=
    if 0 < winningTrades.length then
      grossProfit / (winningTrades.length : ℚ)
    else 0
  let avgLoss :=
    if 0 < losingTrades.length then grossLoss / (losingTrades.length : ℚ) else 1
  let winRate :=
    if 0 < trades.length then (winningTrades.length : ℚ) / (trades.length : ℚ)
    else 0
  let expectancy := winRate * avgWin - (1 - winRate) * avgLoss
  let avgReturn := if 0 < returns.length then returns.sum / (returns.length : ℚ) else 0
  let squaredDiffs := returns.map (fun r => (r - avgReturn) ^ 2)
  let variance :=
    if 0 < squaredDiffs.length then squaredDiffs.sum / (squaredDiffs.length : ℚ)
    else 0
  let volatility := jsqrt variance * jsqrt 252
  let squaredDrawdowns :=
    equityCurve.map (fun e => (e.drawdownPercent * 100) ^ 2)
  { cagr := cagrVal jpow startEquity endEquity years
    volatility := volatility
    sharpe := sharpeVal jsqrt returns 0
    sortino := sortinoVal jsqrt returns 0
    calmar :=
      if 0 < dd.2 then cagrVal jpow startEquity endEquity years / dd.2 else 0
    maxDrawdown := dd.2
    maxDrawdownDuration := getMaxDrawdownDuration equityCurve
    winRate := winRate
    profitFactor :=
      if 0 < grossLoss then .fin (grossProfit / grossLoss) else .inf
    expectancy := expectancy
    payoff := if 0 < avgLoss then avgWin / avgLoss else 0
    ulcerIndex :=
      match squaredDrawdowns with
      | [] => .nan
      | _ => .fin (jsqrt (squaredDrawdowns.sum / (squaredDrawdowns.length : ℚ))) }

/-! ## Drawdown-period extraction (`calculateDrawdowns`) -/

/-- Scan state of `calculateDrawdowns`. -/
structure DDScan where
  periods : List DrawdownPeriod
  peak : ℚ
  peakDate : ℤ
  inDrawdown : Bool
  current : Option DrawdownPeriod
deriving DecidableEq, Repr

/-- One step of the `calculateDrawdowns` scan, mirroring the source's three
branches: new peak (with recovery of an open period), positive drawdown
(open or extend a period), or neither (no-op). -/
def ddStep (st : DDScan) (p : EquityPoint) : DDScan :=
  if st.peak < p.equity then
    let st' :=
      if st.inDrawdown then
        match st.current with
        | some cur =>
            { st with
              periods := st.periods ++
                [{ cur with recovered := true, recoveryDate := some p.timestamp }]
              current := none
              inDrawdown := false }
        | none => st
      else st
    { st' with peak := p.equity, peakDate := p.timestamp }
  else if 0 < p.drawdown then
    if !st.inDrawdown then
      { st with
        inDrawdown := true
        current := some
          { startDate := st.peakDate
            endDate := p.timestamp
            maxDrawdown := p.drawdown
            maxDrawdownPercent := p.drawdownPercent
            duration := 0
            recovered := false
            recoveryDate := none } }
    else
      match st.current with
      | some cur =>
          let cur1 := { cur with endDate := p.timestamp }
          let cur2 :=
            if cur1.maxDrawdown < p.drawdown then
              { cur1 with
                maxDrawdown := p.drawdown
                maxDrawdownPercent := p.drawdownPercent }
            else cur1
          { st with
            current := some
              { cur2 with
                duration :=
                  ((cur2.endDate - cur2.startDate : ℤ) : ℚ) /
                    (1000 * 60 * 60 * 24) } }
      | none => st
  else st

/-- `calculateDrawdowns(equityCurve)`: scan once; a period still open at
the end of the curve is emitted unrecovered. -/
def calculateDrawdowns (equityCurve : List EquityPoint) :
    List DrawdownPeriod :=
  let init : DDScan :=
    { periods := []
      peak := orDefaultQ ((equityCurve.head?).map (·.equity)) 0
      peakDate := ((equityCurve.head?).map (·.timestamp)).getD 0
      inDrawdown := false
      current := none }
  let final := equityCurve.foldl ddStep init
  final.periods ++
    (match final.inDrawdown, final.current with
     | true, some cur => [cur]
     | _, _ => [])

/-! ## Concrete inputs for the spec scenarios and counterexamples -/

/-- A concrete stand-in for the abstract `Math.sqrt`; no claim below
depends on square-root values. -/
def jsqrt0 : ℚ → ℚ := fun _ => 0

/-- A concrete stand-in for the abstract `Math.pow`. -/
def jpow0 : ℚ → ℚ → ℚ := fun _ _ => 0

/-- An unresolved snapshot of market `m1` with a single outcome. -/
def snapM1 (t : ℤ) (p : ℚ) : MarketSnapshot := ⟨"m1", t, [⟨"o1", p⟩], false⟩

/-- Scenario A signal: buy `m1`, take profit at 0.60. -/
def sigA : Signal := ⟨"s1", "m1", .buy, none, none, some (3 / 5), none⟩

/-- Scenario A strategy: emit the buy signal when `m1` trades at 0.40,
always validate, size 100. -/
def stratA : Strategy :=
  { generateSignals := fun frame =>
      if frame.any (fun m => decide ((firstOutcome m).price = 2 / 5)) then
        [sigA]
      else []
    validateSignal := fun _ => true
    getPositionSize := fun _ _ => 100 }

/-- Scenario A configuration: initial capital 10000. -/
def cfgA : BacktestConfig := ⟨0, 1, 10000, none⟩

/-- Scenario A data: `m1` at 0.40 then 0.60. -/
def mdA : MarketData := [("m1", [snapM1 0 (2 / 5), snapM1 1 (3 / 5)])]

/-- The engine constructed with explicit zero slippage and fees — which the
constructor's `||` turns back into the 0.005 / 0.02 defaults. -/
def engDefaulted : BacktestEngine := mkBacktestEngine ⟨some 0, some 0⟩

/-- An engine whose internal slippage and fee fields really are zero. -/
def engZero : BacktestEngine := ⟨0, 0⟩

/-- A two-point constant equity curve at 10000. -/
def curveFlat : List EquityPoint := [⟨0, 10000, 0, 0⟩, ⟨1, 10000, 0, 0⟩]

/-- A buy signal on `m1` that expires at time `e`. -/
def sigExp (e : ℤ) : Signal := ⟨"s3", "m1", .buy, none, none, none, some e⟩

/-- Strategy that emits the expiring signal on the frame at time 0. -/
def stratExp (e : ℤ) : Strategy :=
  { generateSignals := fun frame =>
      if frame.any (fun m => decide (m.timestamp = 0)) then [sigExp e] else []
    validateSignal := fun _ => true
    getPositionSize := fun _ _ => 100 }

/-- Configuration for the expiration runs: end date 200. -/
def cfgB : BacktestConfig := ⟨0, 200, 10000, none⟩

/-- Data for the expiration runs: `m1` at 0.50 at times 0 and 200. -/
def mdB : MarketData := [("m1", [snapM1 0 (1 / 2), snapM1 200 (1 / 2)])]

/-- A long position on `m1` whose signal expired at time 100, with no
stop-loss and no take-profit. -/
def posExp100 : Position := ⟨.buy, 1 / 2, 0, 100, sigExp 100⟩

/-- Configuration whose concurrent-position cap is explicitly 0. -/
def cfgCap0 : BacktestConfig := ⟨0, 200, 10000, some 0⟩

/-- Scenario D signal: buy market `b`. -/
def sigB : Signal := ⟨"sb", "b", .buy, none, none, none, none⟩

/-- An open position on market `a` (its signal is immaterial). -/
def posOnA : Position := ⟨.buy, 1 / 2, 0, 10, sigA⟩

/-- Scenario D state: one open position on `a`, equity 10000. -/
def stateD : SimState := ⟨[("a", posOnA)], 10000, 10000, [], [], []⟩

/-- Scenario D frame: market `b` at 0.50. -/
def frameD : List MarketSnapshot := [⟨"b", 5, [⟨"ob", 1 / 2⟩], false⟩]

/-- Scenario D configuration: cap of 2, so exactly one slot remains. -/
def cfgD : BacktestConfig := ⟨0, 10, 10000, some 2⟩

/-- Scenario D strategy: accepts everything at size 100 (its signal
generation is not consulted in the direct intake fold). -/
def stratD : Strategy :=
  { generateSignals := fun _ => []
    validateSignal := fun _ => true
    getPositionSize := fun _ _ => 100 }

/-- Scenario C equity curve [100, 90, 80, 95, 110] with the engine's
drawdown fields (running peak 100 until the final point). -/
def curveC : List EquityPoint :=
  [⟨0, 100, 0, 0⟩, ⟨1, 90, 10, 1 / 10⟩, ⟨2, 80, 20, 1 / 5⟩,
   ⟨3, 95, 5, 1 / 20⟩, ⟨4, 110, 0, 0⟩]

/-- Data for the equity-accounting counterexample: a single snapshot of
`m1` at 0.40, so the opened position survives to the closing pass. -/
def mdOne : MarketData := [("m1", [snapM1 0 (2 / 5)])]

/-- Configuration for the equity-accounting counterexample. -/
def cfgOne : BacktestConfig := ⟨0, 200, 10000, none⟩

/-! ## Derived notions used by the theorems -/

/-- The trace of intermediate fold states: the seed followed by the state
after each element.  Applied to `stepFrame`, this is the simulation state
at every frame boundary of a run. -/
def statesOf {α β : Type _} (f : β → α → β) (s : β) : List α → List β
  | [] => [s]
  | a :: l => s :: statesOf f (f s a) l

/-- The running peak after a whole curve: `max`-accumulation of the
equities over the initial capital, matching the engine's `peakEquity`. -/
def finalPeak (init : ℚ) (curve : List EquityPoint) : ℚ :=
  curve.foldl (fun a p => max a p.equity) init

/-- The running peak at each curve point (the peak the engine used when it
emitted that point). -/
def runningPeaks (init : ℚ) : List EquityPoint → List ℚ
  | [] => []
  | p :: rest => max init p.equity :: runningPeaks (max init p.equity) rest

/-- The drawdown relation the spec states for every curve point given its
running peak. -/
def ddProp (pk : ℚ) (p : EquityPoint) : Prop :=
  p.drawdown = max 0 (pk - p.equity) ∧
  p.drawdownPercent = if 0 < pk then p.drawdown / pk else 0

/-- The trade recorded by the defaulted Scenario A run (slippage 0.005 and
fees 0.02 silently substituted for the configured zeros). -/
def tradeA : BacktestTrade :=
  { marketId := "m1"
    outcomeId := "o1"
    side := .buy
    entryTime := 0
    exitTime := 1
    entryPrice := 201 / 500
    exitPrice := 597 / 1000
    size := 100
    pnl := 31 / 2
    pnlPercent := 3250 / 67
    fees := 4
    slippage := 3 / 10
    signal := sigA }

/-- The `onSignalExecuted` record of the defaulted Scenario A run. -/
def resultA : SignalResult :=
  { signalId := "s1"
    executed := true
    entryPrice := 201 / 500
    exitPrice := 597 / 1000
    pnl := 31 / 2
    pnlPercent := 3250 / 67
    holdingPeriod := 1 / 3600000
    outcome := .win }

/-- The single drawdown period that Scenario C must produce. -/
def periodC : DrawdownPeriod := ⟨0, 3, 20, 1 / 5, 3 / 86400000, true, some 4⟩

/-- The outcome classification property a single notification must obey. -/
def outcomeOk (r : SignalResult) : Prop :=
  (r.outcome = .win ↔ 0 < r.pnl) ∧ (r.outcome = .loss ↔ r.pnl < 0) ∧
  (r.outcome = .breakeven ↔ r.pnl = 0)

/-- What every emitted drawdown period satisfies: it records a strictly
positive maximum drawdown, and it is marked recovered exactly when it
carries a recovery date. -/
def periodOk (q : DrawdownPeriod) : Prop :=
  0 < q.maxDrawdown ∧ (q.recovered = true ↔ q.recoveryDate ≠ none)

/-- Scan-state invariant: all emitted periods are `periodOk`, and any
in-progress period has positive maximum drawdown and is still unrecovered
with no recovery date. -/
def scanOk (st : DDScan) : Prop :=
  (∀ q ∈ st.periods, periodOk q) ∧
  (∀ c, st.current = some c →
    0 < c.maxDrawdown ∧ c.recovered = false ∧ c.recoveryDate = none)


/-! ## Generic fold lemmas -/

theorem foldl_preserve {α β : Type _} (P : β → Prop) {f : β → α → β}
    (h : ∀ s a, P s → P (f s a)) :
    ∀ (l : List α) (s : β), P s → P (l.foldl f s) := by
  intro l
  induction l with
  | nil => intro s hs; simpa using hs
  | cons a t ih =>
      intro s hs
      simpa using ih (f s a) (h s a hs)

theorem statesOf_forall {α β : Type _} (P : β → Prop) {f : β → α → β}
    (h : ∀ s a, P s → P (f s a)) :
    ∀ (l : List α) (s : β), P s → ∀ x ∈ statesOf f s l, P x := by
  intro l
  induction l with
  | nil =>
      intro s hs x hx
      simp only [statesOf, List.mem_singleton] at hx
      exact hx ▸ hs
  | cons a t ih =>
      intro s hs x hx
      simp only [statesOf, List.mem_cons] at hx
      rcases hx with rfl | hx
      · exact hs
      · exact ih (f s a) (h s a hs) x hx

/-! ## Shape lemmas for the per-frame steps -/

theorem processExit_cases (eng : BacktestEngine) (wc : ℤ)
    (frame : List MarketSnapshot) (date : ℤ) (st : SimState)
    (e : String × Position) :
    processExit eng wc frame date st e = st ∨
    ∃ market : MarketSnapshot,
      processExit eng wc frame date st e =
        { st with
          trades := st.trades ++ [closeTrade eng e.1 e.2 market date]
          equity := st.equity + (closeTrade eng e.1 e.2 market date).pnl
          positions := st.positions.filter (fun p => decide (p.1 ≠ e.1))
          notifs := st.notifs ++
            [mkSignalResult e.2 (closeTrade eng e.1 e.2 market date) date] } := by
  simp only [processExit]
  cases hfind : frame.find? (fun m => decide (m.id = e.1)) with
  | none => exact Or.inl rfl
  | some market =>
      dsimp only
      by_cases hexit :
          (shouldExitPosition wc e.2 (firstOutcome market).price
            || market.resolved) = true
      · rw [if_pos hexit]
        exact Or.inr ⟨market, rfl⟩
      · rw [if_neg hexit]
        exact Or.inl rfl

theorem processSignal_cases (eng : BacktestEngine) (strat : Strategy)
    (cfg : BacktestConfig) (frame : List MarketSnapshot) (date : ℤ)
    (st : SimState) (signal : Signal) :
    processSignal eng strat cfg frame date st signal = st ∨
    (st.positions.length < effectiveCap cfg ∧
      (∀ p ∈ st.positions, p.1 ≠ signal.marketId) ∧
      ∃ pos : Position,
        processSignal eng strat cfg frame date st signal =
          { st with positions := st.positions ++ [(signal.marketId, pos)] }) := by
  simp only [processSignal]
  by_cases h1 : st.positions.length ≥ effectiveCap cfg
  · rw [if_pos h1]; exact Or.inl rfl
  rw [if_neg h1]
  by_cases h2 : (st.positions.any fun p => decide (p.1 = signal.marketId)) = true
  · rw [if_pos h2]; exact Or.inl rfl
  rw [if_neg h2]
  by_cases h3 : (!strat.validateSignal signal) = true
  · rw [if_pos h3]; exact Or.inl rfl
  rw [if_neg h3]
  cases hfind : frame.find? (fun m => decide (m.id = signal.marketId)) with
  | none => exact Or.inl rfl
  | some market =>
      dsimp only
      by_cases h4 : market.resolved = true
      · rw [if_pos h4]; exact Or.inl rfl
      rw [if_neg h4]
      by_cases h5 : strat.getPositionSize signal st.equity < 1
      · rw [if_pos h5]; exact Or.inl rfl
      rw [if_neg h5]
      refine Or.inr ⟨lt_of_not_le h1, ?_, ?_⟩
      · intro p hp hEq
        exact h2 (List.any_eq_true.mpr ⟨p, hp, by simpa using hEq⟩)
      · exact ⟨⟨signal.type,
          applySlippage eng (orDefaultQ signal.entryPrice
            (firstOutcome market).price) signal.type,
          date, strat.getPositionSize signal st.equity, signal⟩, rfl⟩

theorem stepFrame_cases (eng : BacktestEngine) (strat : Strategy)
    (cfg : BacktestConfig) (wc : ℤ) (md : MarketData) (st : SimState)
    (ts : ℤ) :
    (stepFrame eng strat cfg wc md st ts = st ∧
      (currentSnapshots md ts).isEmpty = true) ∨
    ∃ st2 : SimState,
      st2 = (strat.generateSignals (currentSnapshots md ts)).foldl
          (processSignal eng strat cfg (currentSnapshots md ts) ts)
          (st.positions.foldl
            (processExit eng wc (currentSnapshots md ts) ts) st) ∧
      (currentSnapshots md ts).isEmpty = false ∧
      stepFrame eng strat cfg wc md st ts =
        { st2 with
          peakEquity := max st2.peakEquity st2.equity
          curve := st2.curve ++
            [{ timestamp := ts
               equity := st2.equity
               drawdown := max st2.peakEquity st2.equity - st2.equity
               drawdownPercent :=
                 if 0 < max st2.peakEquity st2.equity then
                   (max st2.peakEquity st2.equity - st2.equity) /
                     max st2.peakEquity st2.equity
                 else 0 }] } := by
  simp only [stepFrame]
  by_cases hemp : (currentSnapshots md ts).isEmpty = true
  · rw [if_pos hemp]; exact Or.inl ⟨rfl, hemp⟩
  · rw [if_neg hemp]
    exact Or.inr ⟨_, rfl, by simpa using hemp, rfl⟩

theorem forceCloseStep_cases (eng : BacktestEngine) (cfg : BacktestConfig)
    (md : MarketData) (acc : SimState) (e : String × Position) :
    forceCloseStep eng cfg md acc e = acc ∨
    ∃ t : BacktestTrade, t.fees = eng.fees * t.size * 2 ∧
      forceCloseStep eng cfg md acc e = { acc with trades := acc.trades ++ [t] } := by
  simp only [forceCloseStep]
  cases hfind : (md.filterMap (fun m => m.2.getLast?)).find?
      (fun m => decide (m.id = e.1)) with
  | none => exact Or.inl rfl
  | some market =>
      dsimp only
      exact Or.inr ⟨_, rfl, rfl⟩

/-- Every field except `trades` survives the closing pass unchanged, and
the trade list is only extended — by trades whose fees obey the round-trip
formula. -/
theorem forceCloseEnd_foldl_fields (eng : BacktestEngine)
    (cfg : BacktestConfig) (md : MarketData) :
    ∀ (l : List (String × Position)) (acc : SimState),
      (l.foldl (forceCloseStep eng cfg md) acc).equity = acc.equity ∧
      (l.foldl (forceCloseStep eng cfg md) acc).positions = acc.positions ∧
      (l.foldl (forceCloseStep eng cfg md) acc).peakEquity = acc.peakEquity ∧
      (l.foldl (forceCloseStep eng cfg md) acc).curve = acc.curve ∧
      (l.foldl (forceCloseStep eng cfg md) acc).notifs = acc.notifs ∧
      ∃ extra : List BacktestTrade,
        (l.foldl (forceCloseStep eng cfg md) acc).trades = acc.trades ++ extra ∧
        ∀ t ∈ extra, t.fees = eng.fees * t.size * 2 := by
  intro l
  induction l with
  | nil =>
      intro acc
      exact ⟨rfl, rfl, rfl, rfl, rfl, [], by simp, by simp⟩
  | cons e rest ih =>
      intro acc
      rcases forceCloseStep_cases eng cfg md acc e with heq | ⟨t, ht, heq⟩ <;>
        simp only [List.foldl_cons, heq]
      · exact ih acc
      · obtain ⟨h1, h2, h3, h4, h5, extra, h6, h7⟩ :=
          ih { acc with trades := acc.trades ++ [t] }
        refine ⟨h1, h2, h3, h4, h5, [t] ++ extra, ?_, ?_⟩
        · rw [h6]; simp
        · intro u hu
          rcases List.mem_append.mp hu with hu | hu
          · rw [List.mem_singleton.mp hu]; exact ht
          · exact h7 u hu

/-! ## Invariant: unique market keys and the concurrency cap -/

theorem posInv_processExit (eng : BacktestEngine) (wc : ℤ)
    (frame : List MarketSnapshot) (date : ℤ) (st : SimState)
    (e : String × Position) {n : ℕ}
    (h : (st.positions.map Prod.fst).Nodup ∧ st.positions.length ≤ n) :
    (((processExit eng wc frame date st e).positions.map Prod.fst).Nodup ∧
      (processExit eng wc frame date st e).positions.length ≤ n) := by
  rcases processExit_cases eng wc frame date st e with heq | ⟨market, heq⟩ <;>
    rw [heq]
  · exact h
  · dsimp only
    constructor
    · exact List.Nodup.sublist ((List.filter_sublist _).map Prod.fst) h.1
    · exact le_trans (List.length_filter_le _ _) h.2

theorem posInv_processSignal (eng : BacktestEngine) (strat : Strategy)
    (cfg : BacktestConfig) (frame : List MarketSnapshot) (date : ℤ)
    (st : SimState) (signal : Signal)
    (h : (st.positions.map Prod.fst).Nodup ∧
      st.positions.length ≤ effectiveCap cfg) :
    (((processSignal eng strat cfg frame date st signal).positions.map
        Prod.fst).Nodup ∧
      (processSignal eng strat cfg frame date st signal).positions.length ≤
        effectiveCap cfg) := by
  rcases processSignal_cases eng strat cfg frame date st signal with
    heq | ⟨hlt, hfresh, pos, heq⟩ <;> rw [heq]
  · exact h
  · dsimp only
    constructor
    · have hnotin : signal.marketId ∉ st.positions.map Prod.fst := by
        intro hmem
        rcases List.mem_map.mp hmem with ⟨p, hp, hEq⟩
        exact hfresh p hp hEq
      simp only [List.map_append, List.map_cons, List.map_nil]
      refine List.Nodup.append h.1 (List.nodup_singleton _) ?_
      intro a ha hb
      rw [List.mem_singleton.mp hb] at ha
      exact hnotin ha
    · simpa using Nat.succ_le_of_lt hlt

theorem posInv_stepFrame (eng : BacktestEngine) (strat : Strategy)
    (cfg : BacktestConfig) (wc : ℤ) (md : MarketData) (st : SimState)
    (ts : ℤ)
    (h : (st.positions.map Prod.fst).Nodup ∧
      st.positions.length ≤ effectiveCap cfg) :
    (((stepFrame eng strat cfg wc md st ts).positions.map Prod.fst).Nodup ∧
      (stepFrame eng strat cfg wc md st ts).positions.length ≤
        effectiveCap cfg) := by
  rcases stepFrame_cases eng strat cfg wc md st ts with ⟨heq, _⟩ |
    ⟨st2, hst2, _, heq⟩ <;> rw [heq]
  · exact h
  · dsimp only
    rw [hst2]
    exact foldl_preserve
      (fun s : SimState => ((s.positions.map Prod.fst).Nodup ∧
        s.positions.length ≤ effectiveCap cfg))
      (fun s a hs => posInv_processSignal eng strat cfg _ ts s a hs) _ _
      (foldl_preserve
        (fun s : SimState => ((s.positions.map Prod.fst).Nodup ∧
          s.positions.length ≤ effectiveCap cfg))
        (fun s a hs => posInv_processExit eng wc _ ts s a hs) _ _ h)

/-! ## Invariant: round-trip fees on every recorded trade -/

theorem closeTrade_fees (eng : BacktestEngine) (marketId : String)
    (pos : Position) (market : MarketSnapshot) (date : ℤ) :
    (closeTrade eng marketId pos market date).fees = eng.fees * pos.size * 2 :=
  rfl

theorem closeTrade_size (eng : BacktestEngine) (marketId : String)
    (pos : Position) (market : MarketSnapshot) (date : ℤ) :
    (closeTrade eng marketId pos market date).size = pos.size :=
  rfl

theorem feesInv_processExit (eng : BacktestEngine) (wc : ℤ)
    (frame : List MarketSnapshot) (date : ℤ) (st : SimState)
    (e : String × Position)
    (h : ∀ t ∈ st.trades, t.fees = eng.fees * t.size * 2) :
    ∀ t ∈ (processExit eng wc frame date st e).trades,
      t.fees = eng.fees * t.size * 2 := by
  rcases processExit_cases eng wc frame date st e with heq | ⟨market, heq⟩ <;>
    rw [heq]
  · exact h
  · dsimp only
    intro t ht
    rcases List.mem_append.mp ht with ht | ht
    · exact h t ht
    · rw [List.mem_singleton.mp ht, closeTrade_fees, closeTrade_size]

theorem feesInv_stepFrame (eng : BacktestEngine) (strat : Strategy)
    (cfg : BacktestConfig) (wc : ℤ) (md : MarketData) (st : SimState)
    (ts : ℤ)
    (h : ∀ t ∈ st.trades, t.fees = eng.fees * t.size * 2) :
    ∀ t ∈ (stepFrame eng strat cfg wc md st ts).trades,
      t.fees = eng.fees * t.size * 2 := by
  rcases stepFrame_cases eng strat cfg wc md st ts with ⟨heq, _⟩ |
    ⟨st2, hst2, _, heq⟩ <;> rw [heq]
  · exact h
  · dsimp only
    rw [hst2]
    refine foldl_preserve
      (fun s : SimState => ∀ t ∈ s.trades, t.fees = eng.fees * t.size * 2)
      (fun s sig hs => ?_) _ _
      (foldl_preserve
        (fun s : SimState => ∀ t ∈ s.trades, t.fees = eng.fees * t.size * 2)
        (fun s a hs => feesInv_processExit eng wc _ ts s a hs)
        _ _ h)
    rcases processSignal_cases eng strat cfg _ ts s sig with
      heq2 | ⟨_, _, pos, heq2⟩ <;> rw [heq2]
    · exact hs
    · exact hs

/-! ## Invariant: equity = initial capital + realised pnl (frame phase) -/

theorem equityInv_processExit (eng : BacktestEngine) (wc : ℤ)
    (frame : List MarketSnapshot) (date : ℤ) (st : SimState)
    (e : String × Position) (init : ℚ)
    (h : st.equity = init + (st.trades.map (·.pnl)).sum) :
    (processExit eng wc frame date st e).equity =
      init + ((processExit eng wc frame date st e).trades.map (·.pnl)).sum := by
  rcases processExit_cases eng wc frame date st e with heq | ⟨market, heq⟩ <;>
    rw [heq]
  · exact h
  · dsimp only
    rw [List.map_append, List.sum_append, h]
    simp [add_assoc]

theorem equityInv_stepFrame (eng : BacktestEngine) (strat : Strategy)
    (cfg : BacktestConfig) (wc : ℤ) (md : MarketData) (st : SimState)
    (ts : ℤ) (init : ℚ)
    (h : st.equity = init + (st.trades.map (·.pnl)).sum) :
    (stepFrame eng strat cfg wc md st ts).equity =
      init + ((stepFrame eng strat cfg wc md st ts).trades.map (·.pnl)).sum := by
  rcases stepFrame_cases eng strat cfg wc md st ts with ⟨heq, _⟩ |
    ⟨st2, hst2, _, heq⟩ <;> rw [heq]
  · exact h
  · dsimp only
    rw [hst2]
    refine foldl_preserve
      (fun s : SimState => s.equity = init + (s.trades.map (·.pnl)).sum)
      (fun s sig hs => ?_) _ _
      (foldl_preserve
        (fun s : SimState => s.equity = init + (s.trades.map (·.pnl)).sum)
        (fun s a hs => equityInv_processExit eng wc _ ts s a init hs) _ _ h)
    rcases processSignal_cases eng strat cfg _ ts s sig with
      heq2 | ⟨_, _, pos, heq2⟩ <;> rw [heq2]
    · exact hs
    · exact hs

theorem equityInv_simulateFrames (eng : BacktestEngine) (strat : Strategy)
    (cfg : BacktestConfig) (wc : ℤ) (md : MarketData) :
    (simulateFrames eng strat cfg wc md).equity =
      cfg.initialCapital +
        ((simulateFrames eng strat cfg wc md).trades.map (·.pnl)).sum := by
  refine foldl_preserve
    (fun s : SimState =>
      s.equity = cfg.initialCapital + (s.trades.map (·.pnl)).sum)
    (fun s a hs => equityInv_stepFrame eng strat cfg wc md s a _ hs) _ _ ?_
  simp [initState]

/-! ## Invariant: synchronous notifications and outcome classification -/

theorem mkSignalResult_pnl (pos : Position) (t : BacktestTrade) (date : ℤ) :
    (mkSignalResult pos t date).pnl = t.pnl :=
  rfl

theorem mkSignalResult_outcome_spec (pos : Position) (t : BacktestTrade)
    (date : ℤ) :
    ((mkSignalResult pos t date).outcome = .win ↔ 0 < t.pnl) ∧
    ((mkSignalResult pos t date).outcome = .loss ↔ t.pnl < 0) ∧
    ((mkSignalResult pos t date).outcome = .breakeven ↔ t.pnl = 0) := by
  simp only [mkSignalResult]
  rcases lt_trichotomy t.pnl 0 with hlt | heq | hgt
  · rw [if_neg (lt_asymm hlt), if_pos hlt]
    exact ⟨⟨fun h => absurd h (by decide), fun h => absurd h (lt_asymm hlt)⟩,
      ⟨fun _ => hlt, fun _ => rfl⟩,
      ⟨fun h => absurd h (by decide), fun h => absurd h (ne_of_lt hlt)⟩⟩
  · rw [if_neg (by rw [heq]; exact lt_irrefl 0),
      if_neg (by rw [heq]; exact lt_irrefl 0)]
    exact ⟨⟨fun h => absurd h (by decide), fun h => absurd heq (ne_of_gt h)⟩,
      ⟨fun h => absurd h (by decide), fun h => absurd heq (ne_of_lt h)⟩,
      ⟨fun _ => heq, fun _ => rfl⟩⟩
  · rw [if_pos hgt]
    exact ⟨⟨fun _ => hgt, fun _ => rfl⟩,
      ⟨fun h => absurd h (by decide), fun h => absurd h (lt_asymm hgt)⟩,
      ⟨fun h => absurd h (by decide), fun h => absurd h (ne_of_gt hgt)⟩⟩

theorem notifInv_processExit (eng : BacktestEngine) (wc : ℤ)
    (frame : List MarketSnapshot) (date : ℤ) (st : SimState)
    (e : String × Position)
    (h : st.notifs.map (·.pnl) = st.trades.map (·.pnl) ∧
      ∀ r ∈ st.notifs, outcomeOk r) :
    ((processExit eng wc frame date st e).notifs.map (·.pnl) =
        (processExit eng wc frame date st e).trades.map (·.pnl) ∧
      ∀ r ∈ (processExit eng wc frame date st e).notifs, outcomeOk r) := by
  rcases processExit_cases eng wc frame date st e with heq | ⟨market, heq⟩ <;>
    rw [heq]
  · exact h
  · dsimp only
    constructor
    · simp only [List.map_append, List.map_cons, List.map_nil, h.1,
        mkSignalResult_pnl]
    · intro r hr
      rcases List.mem_append.mp hr with hr | hr
      · exact h.2 r hr
      · rw [List.mem_singleton.mp hr]
        exact mkSignalResult_outcome_spec e.2 _ date

theorem notifInv_stepFrame (eng : BacktestEngine) (strat : Strategy)
    (cfg : BacktestConfig) (wc : ℤ) (md : MarketData) (st : SimState)
    (ts : ℤ)
    (h : st.notifs.map (·.pnl) = st.trades.map (·.pnl) ∧
      ∀ r ∈ st.notifs, outcomeOk r) :
    ((stepFrame eng strat cfg wc md st ts).notifs.map (·.pnl) =
        (stepFrame eng strat cfg wc md st ts).trades.map (·.pnl) ∧
      ∀ r ∈ (stepFrame eng strat cfg wc md st ts).notifs, outcomeOk r) := by
  rcases stepFrame_cases eng strat cfg wc md st ts with ⟨heq, _⟩ |
    ⟨st2, hst2, _, heq⟩ <;> rw [heq]
  · exact h
  · dsimp only
    rw [hst2]
    refine foldl_preserve
      (fun s : SimState => s.notifs.map (·.pnl) = s.trades.map (·.pnl) ∧
        ∀ r ∈ s.notifs, outcomeOk r)
      (fun s sig hs => ?_) _ _
      (foldl_preserve
        (fun s : SimState => s.notifs.map (·.pnl) = s.trades.map (·.pnl) ∧
          ∀ r ∈ s.notifs, outcomeOk r)
        (fun s a hs => notifInv_processExit eng wc _ ts s a hs) _ _ h)
    rcases processSignal_cases eng strat cfg _ ts s sig with
      heq2 | ⟨_, _, pos, heq2⟩ <;> rw [heq2]
    · exact hs
    · exact hs

theorem notifInv_simulateFrames (eng : BacktestEngine) (strat : Strategy)
    (cfg : BacktestConfig) (wc : ℤ) (md : MarketData) :
    ((simulateFrames eng strat cfg wc md).notifs.map (·.pnl) =
        (simulateFrames eng strat cfg wc md).trades.map (·.pnl) ∧
      ∀ r ∈ (simulateFrames eng strat cfg wc md).notifs, outcomeOk r) := by
  refine foldl_preserve
    (fun s : SimState => s.notifs.map (·.pnl) = s.trades.map (·.pnl) ∧
      ∀ r ∈ s.notifs, outcomeOk r)
    (fun s a hs => notifInv_stepFrame eng strat cfg wc md s a hs) _ _ ?_
  simp [initState]

/-! ## Invariant: running peak and drawdown fields of the equity curve -/

theorem finalPeak_append (init : ℚ) (c : List EquityPoint) (p : EquityPoint) :
    finalPeak init (c ++ [p]) = max (finalPeak init c) p.equity := by
  simp [finalPeak, List.foldl_append]

theorem runningPeaks_append (c : List EquityPoint) (p : EquityPoint) :
    ∀ init : ℚ, runningPeaks init (c ++ [p]) =
      runningPeaks init c ++ [max (finalPeak init c) p.equity] := by
  induction c with
  | nil => intro init; simp [runningPeaks, finalPeak]
  | cons q rest ih =>
      intro init
      show max init q.equity :: runningPeaks (max init q.equity) (rest ++ [p]) =
        (max init q.equity :: runningPeaks (max init q.equity) rest) ++
          [max (finalPeak init (q :: rest)) p.equity]
      rw [ih (max init q.equity), List.cons_append]
      rfl

theorem runningPeaks_chain (c : List EquityPoint) :
    ∀ init : ℚ, (runningPeaks init c).Chain' (· ≤ ·) ∧
      ∀ x, (runningPeaks init c).head? = some x → init ≤ x := by
  induction c with
  | nil => intro init; exact ⟨List.chain'_nil, by simp [runningPeaks]⟩
  | cons p rest ih =>
      intro init
      constructor
      · refine List.chain'_cons'.mpr ⟨?_, (ih (max init p.equity)).1⟩
        intro y hy
        exact (ih (max init p.equity)).2 y hy
      · intro x hx
        simp only [runningPeaks, List.head?_cons, Option.some.injEq] at hx
        rw [← hx]
        exact le_max_left _ _

theorem curveInv_processExit (eng : BacktestEngine) (wc : ℤ)
    (frame : List MarketSnapshot) (date : ℤ) (st : SimState)
    (e : String × Position) (init : ℚ)
    (h : st.peakEquity = finalPeak init st.curve ∧
      List.Forall₂ ddProp (runningPeaks init st.curve) st.curve) :
    ((processExit eng wc frame date st e).peakEquity =
        finalPeak init (processExit eng wc frame date st e).curve ∧
      List.Forall₂ ddProp
        (runningPeaks init (processExit eng wc frame date st e).curve)
        (processExit eng wc frame date st e).curve) := by
  rcases processExit_cases eng wc frame date st e with heq | ⟨market, heq⟩ <;>
    rw [heq]
  · exact h
  · exact h

theorem curveInv_stepFrame (eng : BacktestEngine) (strat : Strategy)
    (cfg : BacktestConfig) (wc : ℤ) (md : MarketData) (st : SimState)
    (ts : ℤ) (init : ℚ)
    (h : st.peakEquity = finalPeak init st.curve ∧
      List.Forall₂ ddProp (runningPeaks init st.curve) st.curve) :
    ((stepFrame eng strat cfg wc md st ts).peakEquity =
        finalPeak init (stepFrame eng strat cfg wc md st ts).curve ∧
      List.Forall₂ ddProp
        (runningPeaks init (stepFrame eng strat cfg wc md st ts).curve)
        (stepFrame eng strat cfg wc md st ts).curve) := by
  rcases stepFrame_cases eng strat cfg wc md st ts with ⟨heq, _⟩ |
    ⟨st2, hst2, _, heq⟩ <;> rw [heq]
  · exact h
  · dsimp only
    have h2 : st2.peakEquity = finalPeak init st2.curve ∧
        List.Forall₂ ddProp (runningPeaks init st2.curve) st2.curve := by
      rw [hst2]
      refine foldl_preserve
        (fun s : SimState => s.peakEquity = finalPeak init s.curve ∧
          List.Forall₂ ddProp (runningPeaks init s.curve) s.curve)
        (fun s sig hs => ?_) _ _
        (foldl_preserve
          (fun s : SimState => s.peakEquity = finalPeak init s.curve ∧
            List.Forall₂ ddProp (runningPeaks init s.curve) s.curve)
          (fun s a hs => curveInv_processExit eng wc _ ts s a init hs) _ _ h)
      rcases processSignal_cases eng strat cfg _ ts s sig with
        heq2 | ⟨_, _, pos, heq2⟩ <;> rw [heq2]
      · exact hs
      · exact hs
    constructor
    · rw [finalPeak_append, ← h2.1]
    · rw [runningPeaks_append, ← h2.1]
      refine List.rel_append h2.2 ?_
      refine List.Forall₂.cons ?_ List.Forall₂.nil
      constructor
      · show max st2.peakEquity st2.equity - st2.equity =
          max 0 (max st2.peakEquity st2.equity - st2.equity)
        rw [max_eq_right (sub_nonneg.mpr (le_max_right _ _))]
      · rfl

theorem curveInv_simulateFrames (eng : BacktestEngine) (strat : Strategy)
    (cfg : BacktestConfig) (wc : ℤ) (md : MarketData) :
    ((simulateFrames eng strat cfg wc md).peakEquity =
        finalPeak cfg.initialCapital (simulateFrames eng strat cfg wc md).curve ∧
      List.Forall₂ ddProp
        (runningPeaks cfg.initialCapital (simulateFrames eng strat cfg wc md).curve)
        (simulateFrames eng strat cfg wc md).curve) := by
  refine foldl_preserve
    (fun s : SimState => s.peakEquity = finalPeak cfg.initialCapital s.curve ∧
      List.Forall₂ ddProp (runningPeaks cfg.initialCapital s.curve) s.curve)
    (fun s a hs => curveInv_stepFrame eng strat cfg wc md s a _ hs) _ _ ?_
  exact ⟨rfl, List.Forall₂.nil⟩

/-! ## The curve's timestamps are exactly the processed ticks -/

theorem processExit_curve (eng : BacktestEngine) (wc : ℤ)
    (frame : List MarketSnapshot) (date : ℤ) (st : SimState)
    (e : String × Position) :
    (processExit eng wc frame date st e).curve = st.curve := by
  rcases processExit_cases eng wc frame date st e with heq | ⟨market, heq⟩ <;>
    rw [heq]

theorem processSignal_curve (eng : BacktestEngine) (strat : Strategy)
    (cfg : BacktestConfig) (frame : List MarketSnapshot) (date : ℤ)
    (st : SimState) (signal : Signal) :
    (processSignal eng strat cfg frame date st signal).curve = st.curve := by
  rcases processSignal_cases eng strat cfg frame date st signal with
    heq | ⟨_, _, pos, heq⟩ <;> rw [heq]

theorem curve_timestamps_foldl (eng : BacktestEngine) (strat : Strategy)
    (cfg : BacktestConfig) (wc : ℤ) (md : MarketData) :
    ∀ (ts : List ℤ) (st : SimState),
      ((ts.foldl (stepFrame eng strat cfg wc md) st).curve).map (·.timestamp) =
        st.curve.map (·.timestamp) ++
          ts.filter (fun t => !(currentSnapshots md t).isEmpty) := by
  intro ts
  induction ts with
  | nil => intro st; simp
  | cons t rest ih =>
      intro st
      rw [List.foldl_cons, ih]
      rcases stepFrame_cases eng strat cfg wc md st t with ⟨heq, hemp⟩ |
        ⟨st2, hst2, hemp, heq⟩
      · rw [heq, List.filter_cons, hemp]
        simp
      · have hc : st2.curve = st.curve := by
          rw [hst2]
          refine foldl_preserve (fun s : SimState => s.curve = st.curve)
            (fun s sig hs =>
              (processSignal_curve eng strat cfg _ t s sig).trans hs) _ _
            (foldl_preserve (fun s : SimState => s.curve = st.curve)
              (fun s a hs =>
                (processExit_curve eng wc _ t s a).trans hs) _ _ rfl)
        rw [heq]
        dsimp only
        rw [hc, List.filter_cons, hemp]
        simp

theorem sortedTimestamps_pairwise (md : MarketData) :
    (sortedTimestamps md).Pairwise (· < ·) := by
  have hs : (sortedTimestamps md).Pairwise (· ≤ ·) :=
    List.sorted_insertionSort (· ≤ ·) _
  have hn : (sortedTimestamps md).Pairwise (· ≠ ·) :=
    ((List.perm_insertionSort (· ≤ ·) _).nodup_iff).mpr (List.nodup_dedup _)
  exact (hs.and hn).imp (fun hab => lt_of_le_of_ne hab.1 hab.2)

/-! ## Invariant of the drawdown-period scan -/

theorem ddStep_scanOk (st : DDScan) (p : EquityPoint) (h : scanOk st) :
    scanOk (ddStep st p) := by
  simp only [ddStep]
  by_cases h1 : st.peak < p.equity
  · rw [if_pos h1]
    by_cases h2 : st.inDrawdown = true
    · rw [if_pos h2]
      cases hcur : st.current with
      | none => exact ⟨h.1, fun c hc => h.2 c ((hcur ▸ hc : st.current = some c))⟩
      | some cur =>
          dsimp only
          refine ⟨?_, ?_⟩
          · intro q hq
            rcases List.mem_append.mp hq with hq | hq
            · exact h.1 q hq
            · rw [List.mem_singleton.mp hq]
              exact ⟨(h.2 cur hcur).1, by simp⟩
          · intro c hc
            exact absurd hc (by simp)
    · rw [if_neg h2]
      exact h
  · rw [if_neg h1]
    by_cases hdd : 0 < p.drawdown
    · rw [if_pos hdd]
      by_cases h2 : (!st.inDrawdown) = true
      · rw [if_pos h2]
        refine ⟨h.1, ?_⟩
        intro c hc
        have : c = { startDate := st.peakDate
                     endDate := p.timestamp
                     maxDrawdown := p.drawdown
                     maxDrawdownPercent := p.drawdownPercent
                     duration := 0
                     recovered := false
                     recoveryDate := none } := by
          simpa using hc.symm
        rw [this]
        exact ⟨hdd, rfl, rfl⟩
      · rw [if_neg h2]
        cases hcur : st.current with
        | none => exact ⟨h.1, fun c hc => h.2 c ((hcur ▸ hc : st.current = some c))⟩
        | some cur =>
            dsimp only
            refine ⟨h.1, ?_⟩
            intro c hc
            simp only [Option.some.injEq] at hc
            rw [← hc]
            by_cases h3 : cur.maxDrawdown < p.drawdown
            · rw [if_pos h3]
              exact ⟨hdd, (h.2 cur hcur).2.1, (h.2 cur hcur).2.2⟩
            · rw [if_neg h3]
              exact ⟨(h.2 cur hcur).1, (h.2 cur hcur).2.1, (h.2 cur hcur).2.2⟩
    · rw [if_neg hdd]
      exact h

theorem calculateDrawdowns_periodOk (curve : List EquityPoint) :
    ∀ q ∈ calculateDrawdowns curve, periodOk q := by
  have hscan : scanOk (curve.foldl ddStep
      { periods := []
        peak := orDefaultQ ((curve.head?).map (·.equity)) 0
        peakDate := ((curve.head?).map (·.timestamp)).getD 0
        inDrawdown := false
        current := none }) := by
    refine foldl_preserve scanOk (fun s p hs => ddStep_scanOk s p hs) _ _ ?_
    exact ⟨fun q hq => absurd hq (List.not_mem_nil q), fun c hc => by cases hc⟩
  intro q hq
  simp only [calculateDrawdowns] at hq
  revert hq
  generalize hfin : curve.foldl ddStep
      { periods := []
        peak := orDefaultQ ((curve.head?).map (·.equity)) 0
        peakDate := ((curve.head?).map (·.timestamp)).getD 0
        inDrawdown := false
        current := none } = fin at hscan
  intro hq
  rcases List.mem_append.mp hq with hq | hq
  · exact hscan.1 q hq
  · cases hb : fin.inDrawdown <;> cases hc : fin.current <;>
      simp only [hb, hc] at hq
    · rcases hq
    · rcases hq
    · rcases hq
    case true.some cur =>
      rw [List.mem_singleton.mp hq]
      obtain ⟨hpos, hrec, hdate⟩ := hscan.2 cur hc
      exact ⟨hpos, by rw [hrec, hdate]; simp⟩

/-! ## The claims -/

/-- **C1** (evidence of the code bug).  Scenario A demands: slippage 0 and
fees 0, buy at 0.40, sell at 0.60, size 100 on capital 10000 give
pnl = 20, totalReturn = 0.002, winRate = 1.  The constructor's JS `||`
turns the explicitly configured zeros back into the 0.005/0.02 defaults,
so the engine records pnl = 15.5 and totalReturn = 0.00155 instead
(winRate is still 1).  With engine cost fields that really are zero, the
claimed numbers hold exactly, confirming the spec states the intended
semantics. -/
theorem C1_scenario_a :
    mkBacktestEngine ⟨some 0, some 0⟩ =
      { slippage := 1 / 200, fees := 1 / 50 } ∧
    (simulate engDefaulted stratA cfgA 0 mdA).trades.map (·.pnl) =
      [31 / 2] ∧
    (calculateSummary jsqrt0 (simulate engDefaulted stratA cfgA 0 mdA).trades
        (simulate engDefaulted stratA cfgA 0 mdA).curve cfgA).totalReturn =
      31 / 20000 ∧
    (calculateSummary jsqrt0 (simulate engDefaulted stratA cfgA 0 mdA).trades
        (simulate engDefaulted stratA cfgA 0 mdA).curve cfgA).winRate = 1 ∧
    (simulate engZero stratA cfgA 0 mdA).trades.map (·.pnl) = [20] ∧
    (calculateSummary jsqrt0 (simulate engZero stratA cfgA 0 mdA).trades
        (simulate engZero stratA cfgA 0 mdA).curve cfgA).totalReturn =
      1 / 500 ∧
    (calculateSummary jsqrt0 (simulate engZero stratA cfgA 0 mdA).trades
        (simulate engZero stratA cfgA 0 mdA).curve cfgA).winRate = 1 := by
  norm_num [simulate, simulateFrames, forceCloseEnd, forceCloseStep,
    stepFrame, processExit, processSignal, sortedTimestamps,
    currentSnapshots, initState, closeTrade, mkSignalResult,
    shouldExitPosition, applySlippage, calculatePnL, oppositeSide,
    firstOutcome, orDefaultQ, effectiveCap, mkBacktestEngine,
    snapM1, List.insertionSort, List.orderedInsert, List.dedup,
    List.find?, List.filterMap, List.foldl, List.filter, List.any,
    List.flatten, List.headD, List.getLast?, List.map, calculateSummary, winningOf, losingOf, grossProfitOf,
    grossLossOf, returnsOf, maxDrawdown, calculateExposure, listMax,
    sharpeVal, sortinoVal, jsqrt0, stratA, cfgA, mdA, engDefaulted, engZero,
    sigA]

/-- **C2** (counterexample).  For the empty trade list `grossProfit` is 0 —
not positive — yet `profitFactor` is the unbounded `Infinity` value: the
sentinel does not hold "exactly when grossLoss == 0 and grossProfit > 0",
and not every summary metric of an empty trade list is finite. -/
theorem C2_profit_factor_cx :
    (calculateSummary jsqrt0 [] curveFlat cfgA).profitFactor = JsNum.inf ∧
    ¬ 0 < grossProfitOf [] ∧ grossLossOf [] = 0 := by
  norm_num [calculateSummary, winningOf, losingOf, grossProfitOf,
    grossLossOf, returnsOf, maxDrawdown, calculateExposure, listMax,
    sharpeVal, sortinoVal, jsqrt0, curveFlat, cfgA, List.filter]

theorem grossLossOf_nonneg (trades : List BacktestTrade) :
    0 ≤ grossLossOf trades :=
  abs_nonneg _

/-- **C2** (amended).  `profitFactor` (in the summary and in the
performance metrics) is the unbounded value exactly when grossLoss == 0 —
whether or not grossProfit is positive, so in particular for the empty
trade list; for an empty trade list the trade-derived summary metrics are
0 and `profitFactor` is unbounded; and whenever the per-step returns are
nonempty with none below zero (as in any run with no trades), the
summary's Sortino ratio is the unbounded value as well.  All computations
are total. -/
theorem C2_profit_factor_amended (jsqrt : ℚ → ℚ) (jpow : ℚ → ℚ → ℚ)
    (trades : List BacktestTrade) (curve : List EquityPoint)
    (cfg : BacktestConfig) :
    ((calculateSummary jsqrt trades curve cfg).profitFactor = JsNum.inf ↔
      grossLossOf trades = 0) ∧
    ((calculateMetrics jsqrt jpow trades curve cfg).profitFactor =
        JsNum.inf ↔ grossLossOf trades = 0) ∧
    (trades = [] →
      (calculateSummary jsqrt trades curve cfg).winRate = 0 ∧
      (calculateSummary jsqrt trades curve cfg).totalPnl = 0 ∧
      (calculateSummary jsqrt trades curve cfg).totalReturn = 0 ∧
      (calculateSummary jsqrt trades curve cfg).averageWin = 0 ∧
      (calculateSummary jsqrt trades curve cfg).averageLoss = 0 ∧
      (calculateSummary jsqrt trades curve cfg).largestWin = 0 ∧
      (calculateSummary jsqrt trades curve cfg).largestLoss = 0 ∧
      (calculateSummary jsqrt trades curve cfg).averageHoldingPeriod = 0 ∧
      (calculateSummary jsqrt trades curve cfg).profitFactor = JsNum.inf) ∧
    (returnsOf curve ≠ [] → (∀ r ∈ returnsOf curve, ¬ r < 0) →
      (calculateSummary jsqrt trades curve cfg).sortino = JsNum.inf) := by
  refine ⟨?_, ?_, ?_, ?_⟩
  · simp only [calculateSummary]
    by_cases hgl : 0 < grossLossOf trades
    · rw [if_pos hgl]
      exact iff_of_false (by simp) (ne_of_gt hgl)
    · rw [if_neg hgl]
      exact iff_of_true rfl
        (le_antisymm (not_lt.mp hgl) (grossLossOf_nonneg trades))
  · simp only [calculateMetrics]
    by_cases hgl : 0 < grossLossOf trades
    · rw [if_pos hgl]
      exact iff_of_false (by simp) (ne_of_gt hgl)
    · rw [if_neg hgl]
      exact iff_of_true rfl
        (le_antisymm (not_lt.mp hgl) (grossLossOf_nonneg trades))
  · rintro rfl
    refine ⟨?_, ?_, ?_, ?_, ?_, ?_, ?_, ?_, ?_⟩ <;>
      simp only [calculateSummary, winningOf, losingOf, grossProfitOf,
        grossLossOf, List.filter_nil, List.map_nil, List.sum_nil,
        List.length_nil, abs_zero, lt_irrefl, if_false] <;>
      norm_num
  · intro hne hpos
    simp only [calculateSummary, sortinoVal]
    rw [if_neg hne]
    have hfil : (returnsOf curve).filter (fun r => decide (r < (0 : ℚ))) =
        [] := by
      refine List.filter_eq_nil_iff.mpr ?_
      intro a ha
      simpa using hpos a ha
    rw [hfil, if_pos rfl]

/-- Witness for C2 (amended) at the empty trade list over a flat two-point
curve. -/
theorem C2_profit_factor_amended_witness :
    (calculateSummary jsqrt0 [] curveFlat cfgA).winRate = 0 ∧
    (calculateSummary jsqrt0 [] curveFlat cfgA).profitFactor = JsNum.inf ∧
    (calculateSummary jsqrt0 [] curveFlat cfgA).sortino = JsNum.inf := by
  obtain ⟨-, -, h3, h4⟩ :=
    C2_profit_factor_amended jsqrt0 jpow0 [] curveFlat cfgA
  obtain ⟨hw, -, -, -, -, -, -, -, hpf⟩ := h3 rfl
  refine ⟨hw, hpf, h4 ?_ ?_⟩
  · norm_num [returnsOf, curveFlat]
  · intro r hr
    norm_num [returnsOf, curveFlat] at hr
    norm_num [hr]

/-- **C3** (evidence of the code bug).  Exit evaluation checks signal
expiration against `new Date()` — the wall clock — instead of the frame's
timestamp.  A position whose signal expired at time 100 is NOT closed at
the frame with timestamp 200 when the host clock reads 50 (no trade, the
position stays open), while a position whose signal expires only at time
250 IS closed at the frame with timestamp 200 when the host clock reads
300. -/
theorem C3_expiration_wall_clock :
    shouldExitPosition 50 posExp100 (1 / 2) = false ∧
    shouldExitPosition 300 posExp100 (1 / 2) = true ∧
    (simulateFrames engDefaulted (stratExp 100) cfgB 50 mdB).trades = [] ∧
    (simulateFrames engDefaulted (stratExp 100) cfgB 50
        mdB).positions.length = 1 ∧
    (simulateFrames engDefaulted (stratExp 250) cfgB 300 mdB).trades.map
        (·.exitTime) = [200] := by
  norm_num [simulate, simulateFrames, forceCloseEnd, forceCloseStep,
    stepFrame, processExit, processSignal, sortedTimestamps,
    currentSnapshots, initState, closeTrade, mkSignalResult,
    shouldExitPosition, applySlippage, calculatePnL, oppositeSide,
    firstOutcome, orDefaultQ, effectiveCap, mkBacktestEngine,
    snapM1, List.insertionSort, List.orderedInsert, List.dedup,
    List.find?, List.filterMap, List.foldl, List.filter, List.any,
    List.flatten, List.headD, List.getLast?, List.map, stratExp, cfgB, mdB, engDefaulted, sigExp, posExp100]

/-- **C4**.  Every trade the simulation records (frame exits and the
end-of-run closing pass alike) pays fees equal to `2 × feeRate × size`;
and with a positive slippage fraction, `applySlippage` strictly worsens a
positive price in the direction of the transaction: the buying leg (long
entry, short cover) pays strictly more than the observed price and the
selling leg (long exit, short entry) receives strictly less — which is
exactly how `simulate` prices entries (signal side) and exits (opposite
side). -/
theorem C4_fees_and_slippage (eng : BacktestEngine) (strat : Strategy)
    (cfg : BacktestConfig) (wc : ℤ) (md : MarketData) (price : ℚ) :
    (∀ t ∈ (simulate eng strat cfg wc md).trades,
      t.fees = 2 * eng.fees * t.size) ∧
    (0 < eng.slippage → 0 < price →
      price < applySlippage eng price .buy ∧
      applySlippage eng price .sell < price) := by
  constructor
  · intro t ht
    have hframes : ∀ u ∈ (simulateFrames eng strat cfg wc md).trades,
        u.fees = eng.fees * u.size * 2 :=
      foldl_preserve
        (fun s : SimState => ∀ u ∈ s.trades, u.fees = eng.fees * u.size * 2)
        (fun s a hs => feesInv_stepFrame eng strat cfg wc md s a hs) _ _
        (by simp [initState])
    obtain ⟨-, -, -, -, -, extra, htr, hextra⟩ :=
      forceCloseEnd_foldl_fields eng cfg md
        (simulateFrames eng strat cfg wc md).positions
        (simulateFrames eng strat cfg wc md)
    have ht2 : t ∈ (simulateFrames eng strat cfg wc md).trades ++ extra := by
      rw [← htr]; exact ht
    have : t.fees = eng.fees * t.size * 2 := by
      rcases List.mem_append.mp ht2 with hmem | hmem
      · exact hframes t hmem
      · exact hextra t hmem
    rw [this]; ring
  · intro hs hp
    constructor
    · show price < price * (1 + eng.slippage)
      nlinarith [mul_pos hp hs]
    · show price * (1 - eng.slippage) < price
      nlinarith [mul_pos hp hs]

/-- Witness for C4 at the defaulted Scenario A run and a price of 0.40. -/
theorem C4_fees_and_slippage_witness :
    tradeA.fees = 2 * engDefaulted.fees * tradeA.size ∧
    (2 : ℚ) / 5 < applySlippage engDefaulted (2 / 5) .buy ∧
    applySlippage engDefaulted (2 / 5) .sell < 2 / 5 := by
  have h := C4_fees_and_slippage engDefaulted stratA cfgA 0 mdA (2 / 5)
  refine ⟨h.1 tradeA ?_, (h.2 ?_ ?_).1, (h.2 ?_ ?_).2⟩
  · show tradeA ∈ (simulate engDefaulted stratA cfgA 0 mdA).trades
    norm_num [simulate, simulateFrames, forceCloseEnd, forceCloseStep,
    stepFrame, processExit, processSignal, sortedTimestamps,
    currentSnapshots, initState, closeTrade, mkSignalResult,
    shouldExitPosition, applySlippage, calculatePnL, oppositeSide,
    firstOutcome, orDefaultQ, effectiveCap, mkBacktestEngine,
    snapM1, List.insertionSort, List.orderedInsert, List.dedup,
    List.find?, List.filterMap, List.foldl, List.filter, List.any,
    List.flatten, List.headD, List.getLast?, List.map, stratA, cfgA, mdA, engDefaulted, sigA, tradeA]
    rw [show |(3 : ℚ) / 1000| = 3 / 1000 from abs_of_nonneg (by norm_num)]
    norm_num
  · norm_num [engDefaulted, mkBacktestEngine, orDefaultQ]
  · norm_num
  · norm_num [engDefaulted, mkBacktestEngine, orDefaultQ]
  · norm_num

/-- **C5** (counterexample).  With `maxConcurrentPositions` explicitly
configured as 0, the JS `||` replaces it by the default 10, and a position
opens — so the open-position count (1) exceeds the configured cap (0). -/
theorem C5_cap_zero_cx :
    cfgCap0.maxConcurrentPositions = some 0 ∧
    (simulateFrames engDefaulted stratA cfgCap0 0 mdOne).positions.length =
      1 := by
  norm_num [simulate, simulateFrames, forceCloseEnd, forceCloseStep,
    stepFrame, processExit, processSignal, sortedTimestamps,
    currentSnapshots, initState, closeTrade, mkSignalResult,
    shouldExitPosition, applySlippage, calculatePnL, oppositeSide,
    firstOutcome, orDefaultQ, effectiveCap, mkBacktestEngine,
    snapM1, List.insertionSort, List.orderedInsert, List.dedup,
    List.find?, List.filterMap, List.foldl, List.filter, List.any,
    List.flatten, List.headD, List.getLast?, List.map, stratA, cfgCap0, mdOne, engDefaulted, sigA]

/-- **C5** (amended).  At every frame boundary of every run, the open
position count never exceeds the EFFECTIVE cap — which is 10 when the
option is absent or 0, and the configured value otherwise — and no market
id holds two open positions; and in Scenario D (two signals for market "b"
in one frame, one slot remaining, no open position on "b") exactly one
position on "b" opens. -/
theorem C5_cap_amended :
    (∀ (eng : BacktestEngine) (strat : Strategy) (cfg : BacktestConfig)
        (wc : ℤ) (md : MarketData),
      ∀ st ∈ statesOf (stepFrame eng strat cfg wc md) (initState cfg)
          (sortedTimestamps md),
        st.positions.length ≤ effectiveCap cfg ∧
          (st.positions.map Prod.fst).Nodup) ∧
    ([sigB, sigB].foldl (processSignal engZero stratD cfgD frameD 5)
        stateD).positions.map Prod.fst = ["a", "b"] := by
  constructor
  · intro eng strat cfg wc md st hst
    have h := statesOf_forall
      (fun s : SimState => (s.positions.map Prod.fst).Nodup ∧
        s.positions.length ≤ effectiveCap cfg)
      (fun s a hs => posInv_stepFrame eng strat cfg wc md s a hs)
      (sortedTimestamps md) (initState cfg)
      ⟨by simp [initState], by simp [initState]⟩ st hst
    exact ⟨h.2, h.1⟩
  · norm_num [processSignal, stateD, frameD, cfgD, stratD, sigB, engZero,
      applySlippage, firstOutcome, orDefaultQ, effectiveCap, posOnA,
      List.foldl, List.any, List.find?, List.map]

/-- Witness for C5 (amended): the initial state of a run is on the trace
and satisfies the cap and uniqueness bounds. -/
theorem C5_cap_amended_witness :
    (initState cfgA).positions.length ≤ effectiveCap cfgA ∧
    ((initState cfgA).positions.map Prod.fst).Nodup := by
  refine C5_cap_amended.1 engDefaulted stratA cfgA 0 mdA (initState cfgA) ?_
  norm_num [statesOf, simulate, simulateFrames, forceCloseEnd, forceCloseStep,
    stepFrame, processExit, processSignal, sortedTimestamps,
    currentSnapshots, initState, closeTrade, mkSignalResult,
    shouldExitPosition, applySlippage, calculatePnL, oppositeSide,
    firstOutcome, orDefaultQ, effectiveCap, mkBacktestEngine,
    snapM1, List.insertionSort, List.orderedInsert, List.dedup,
    List.find?, List.filterMap, List.foldl, List.filter, List.any,
    List.flatten, List.headD, List.getLast?, List.map, stratA, cfgA, mdA, engDefaulted, sigA]

/-- **C6**.  The equity curve has exactly one point per processed tick —
its timestamps are precisely the distinct snapshot timestamps whose frame
is nonempty, in strictly increasing order — the running peak sequence is
non-decreasing, and every point satisfies
`drawdown = max 0 (peak − equity)` with
`drawdownPercent = drawdown / peak` when `peak > 0` and 0 otherwise. -/
theorem C6_equity_curve (eng : BacktestEngine) (strat : Strategy)
    (cfg : BacktestConfig) (wc : ℤ) (md : MarketData) :
    ((simulate eng strat cfg wc md).curve.map (·.timestamp) =
      (sortedTimestamps md).filter
        (fun t => !(currentSnapshots md t).isEmpty)) ∧
    ((simulate eng strat cfg wc md).curve.map (·.timestamp)).Pairwise
      (· < ·) ∧
    (runningPeaks cfg.initialCapital
      (simulate eng strat cfg wc md).curve).Chain' (· ≤ ·) ∧
    List.Forall₂ ddProp
      (runningPeaks cfg.initialCapital (simulate eng strat cfg wc md).curve)
      (simulate eng strat cfg wc md).curve := by
  have hcurve : (simulate eng strat cfg wc md).curve =
      (simulateFrames eng strat cfg wc md).curve :=
    (forceCloseEnd_foldl_fields eng cfg md
      (simulateFrames eng strat cfg wc md).positions
      (simulateFrames eng strat cfg wc md)).2.2.2.1
  have hts : (simulateFrames eng strat cfg wc md).curve.map (·.timestamp) =
      (sortedTimestamps md).filter
        (fun t => !(currentSnapshots md t).isEmpty) := by
    have h := curve_timestamps_foldl eng strat cfg wc md
      (sortedTimestamps md) (initState cfg)
    simpa [initState, simulateFrames] using h
  refine ⟨by rw [hcurve]; exact hts, ?_, ?_, ?_⟩
  · rw [hcurve, hts]
    exact List.Pairwise.sublist (List.filter_sublist _)
      (sortedTimestamps_pairwise md)
  · rw [hcurve]
    exact (runningPeaks_chain _ cfg.initialCapital).1
  · rw [hcurve]
    exact (curveInv_simulateFrames eng strat cfg wc md).2

/-- **C7**.  Scenario C: the curve [100, 90, 80, 95, 110] yields exactly
one drawdown period — started at the peak (t = 0), last extended at t = 3,
maximum drawdown 20 (20 %), recovered at the first point whose equity
strictly exceeds 100 (t = 4); and in general every period the single-pass
scan emits has a strictly positive maximum drawdown and carries a recovery
date exactly when it is marked recovered (a period still open at the end
of the curve is emitted unrecovered with no date). -/
theorem C7_drawdown_periods :
    calculateDrawdowns curveC = [periodC] ∧
    ∀ (curve : List EquityPoint), ∀ q ∈ calculateDrawdowns curve,
      0 < q.maxDrawdown ∧ (q.recovered = true ↔ q.recoveryDate ≠ none) := by
  refine ⟨?_, ?_⟩
  · norm_num [calculateDrawdowns, ddStep, curveC, periodC, orDefaultQ,
      List.foldl]
  · intro curve q hq
    exact calculateDrawdowns_periodOk curve q hq

/-- Witness for C7 at the Scenario C period. -/
theorem C7_drawdown_periods_witness :
    0 < periodC.maxDrawdown ∧
    (periodC.recovered = true ↔ periodC.recoveryDate ≠ none) := by
  refine C7_drawdown_periods.2 curveC periodC ?_
  rw [C7_drawdown_periods.1]
  exact List.mem_singleton.mpr rfl

/-- **C8** (counterexample).  On returns with no value below the
threshold, `sortinoRatio` executes `return Infinity`: the result is the
raw IEEE `+Infinity` of its `number` return type (`jsInfinity`), not a
tagged sentinel distinct from the floating-point infinity. -/
theorem C8_raw_infinity_cx :
    sortinoVal jsqrt0 [1 / 100] 0 = jsInfinity := by
  norm_num [sortinoVal, jsInfinity, List.filter]

/-- **C8** (amended).  The Sortino ratio depends on the return list only
through its mean and the sublist of returns strictly below the risk-free
threshold (the denominator uses only those), and when no return lies below
the threshold the result is the floating-point `Infinity` value returned
directly — not a raised error, but also not a tagged sentinel. -/
theorem C8_sortino_amended (jsqrt : ℚ → ℚ) (riskFreeRate : ℚ)
    (r1 r2 : List ℚ) :
    (r1 ≠ [] → r2 ≠ [] →
      r1.sum / (r1.length : ℚ) = r2.sum / (r2.length : ℚ) →
      r1.filter (fun r => decide (r < riskFreeRate)) =
        r2.filter (fun r => decide (r < riskFreeRate)) →
      sortinoVal jsqrt r1 riskFreeRate = sortinoVal jsqrt r2 riskFreeRate) ∧
    (r1 ≠ [] → r1.filter (fun r => decide (r < riskFreeRate)) = [] →
      sortinoVal jsqrt r1 riskFreeRate = JsNum.inf) := by
  constructor
  · intro h1 h2 hmean hfil
    simp only [sortinoVal]
    rw [if_neg h1, if_neg h2, hmean, hfil]
  · intro h1 hfil
    simp only [sortinoVal]
    rw [if_neg h1, hfil, if_pos rfl]

/-- Witness for C8 (amended): two return lists with equal mean (1/2) and
equal downside list ([-1]) get the same Sortino ratio, and a list with no
downside returns gets `Infinity`. -/
theorem C8_sortino_amended_witness :
    sortinoVal jsqrt0 [2, -1] 0 = sortinoVal jsqrt0 [-1, 2] 0 ∧
    sortinoVal jsqrt0 [1 / 100] 0 = JsNum.inf := by
  constructor
  · refine (C8_sortino_amended jsqrt0 0 [2, -1] [-1, 2]).1 (by simp)
      (by simp) (by norm_num) ?_
    norm_num [List.filter]
  · refine (C8_sortino_amended jsqrt0 0 [1 / 100] []).2 (by simp) ?_
    norm_num [List.filter]

/-- **C9** (counterexample).  A run whose only position survives to the
end: the closing pass records a trade with pnl −4.2, but the running
equity stays 10000 — the force-closed trade does not adjust equity, so
final equity ≠ initial capital + the sum of all recorded pnl. -/
theorem C9_force_close_equity_cx :
    (simulate engDefaulted stratA cfgOne 0 mdOne).equity = 10000 ∧
    ((simulate engDefaulted stratA cfgOne 0 mdOne).trades.map (·.pnl)).sum =
      -21 / 5 ∧
    (simulate engDefaulted stratA cfgOne 0 mdOne).equity ≠
      cfgOne.initialCapital +
        ((simulate engDefaulted stratA cfgOne 0 mdOne).trades.map
          (·.pnl)).sum := by
  norm_num [simulate, simulateFrames, forceCloseEnd, forceCloseStep,
    stepFrame, processExit, processSignal, sortedTimestamps,
    currentSnapshots, initState, closeTrade, mkSignalResult,
    shouldExitPosition, applySlippage, calculatePnL, oppositeSide,
    firstOutcome, orDefaultQ, effectiveCap, mkBacktestEngine,
    snapM1, List.insertionSort, List.orderedInsert, List.dedup,
    List.find?, List.filterMap, List.foldl, List.filter, List.any,
    List.flatten, List.headD, List.getLast?, List.map, stratA, cfgOne, mdOne, engDefaulted, sigA]

/-- **C9** (amended).  Running equity starts at the initial capital and is
adjusted exactly when a trade is realised during frame processing; the
closing pass leaves equity untouched while still appending its trades, so
the final equity equals initial capital plus the sum of the pnl of the
FRAME-closed trades only, and the full trade list extends the frame-closed
list. -/
theorem C9_equity_amended (eng : BacktestEngine) (strat : Strategy)
    (cfg : BacktestConfig) (wc : ℤ) (md : MarketData) :
    (simulate eng strat cfg wc md).equity =
      (simulateFrames eng strat cfg wc md).equity ∧
    (simulate eng strat cfg wc md).equity =
      cfg.initialCapital +
        ((simulateFrames eng strat cfg wc md).trades.map (·.pnl)).sum ∧
    ∃ extra : List BacktestTrade,
      (simulate eng strat cfg wc md).trades =
        (simulateFrames eng strat cfg wc md).trades ++ extra := by
  obtain ⟨heq, -, -, -, -, extra, htr, -⟩ :=
    forceCloseEnd_foldl_fields eng cfg md
      (simulateFrames eng strat cfg wc md).positions
      (simulateFrames eng strat cfg wc md)
  exact ⟨heq, heq.trans (equityInv_simulateFrames eng strat cfg wc md),
    extra, htr⟩

/-- **C10**.  During frame processing, every closed position produces
exactly one synchronous strategy notification (the notification list and
the frame trade list have identical pnl sequences), and the outcome is
classified `win` iff pnl > 0, `loss` iff pnl < 0, and `breakeven` iff
pnl = 0 exactly — exact equality, no epsilon. -/
theorem C10_outcome_classification (eng : BacktestEngine) (strat : Strategy)
    (cfg : BacktestConfig) (wc : ℤ) (md : MarketData) :
    ((simulateFrames eng strat cfg wc md).notifs.map (·.pnl) =
      (simulateFrames eng strat cfg wc md).trades.map (·.pnl)) ∧
    ∀ r ∈ (simulateFrames eng strat cfg wc md).notifs,
      (r.outcome = .win ↔ 0 < r.pnl) ∧ (r.outcome = .loss ↔ r.pnl < 0) ∧
      (r.outcome = .breakeven ↔ r.pnl = 0) :=
  ⟨(notifInv_simulateFrames eng strat cfg wc md).1,
    fun r hr => (notifInv_simulateFrames eng strat cfg wc md).2 r hr⟩

/-- Witness for C10 at the defaulted Scenario A run's notification. -/
theorem C10_outcome_classification_witness :
    (resultA.outcome = .win ↔ 0 < resultA.pnl) ∧
    (resultA.outcome = .loss ↔ resultA.pnl < 0) ∧
    (resultA.outcome = .breakeven ↔ resultA.pnl = 0) := by
  refine (C10_outcome_classification engDefaulted stratA cfgA 0 mdA).2
    resultA ?_
  show resultA ∈ (simulateFrames engDefaulted stratA cfgA 0 mdA).notifs
  norm_num [simulate, simulateFrames, forceCloseEnd, forceCloseStep,
    stepFrame, processExit, processSignal, sortedTimestamps,
    currentSnapshots, initState, closeTrade, mkSignalResult,
    shouldExitPosition, applySlippage, calculatePnL, oppositeSide,
    firstOutcome, orDefaultQ, effectiveCap, mkBacktestEngine,
    snapM1, List.insertionSort, List.orderedInsert, List.dedup,
    List.find?, List.filterMap, List.foldl, List.filter, List.any,
    List.flatten, List.headD, List.getLast?, List.map, stratA, cfgA, mdA, engDefaulted, sigA, resultA]

end Backtest
